import Mathlib

/-
  Verification of the polyglot-v2-nodejs-interface session layer.

  Shallow embedding of src/lib/Interface.js, src/lib/Queue.js and the Node
  class (src/README.md, embedded Node.js source) in Lean 4.  JavaScript
  objects that act as string-keyed dictionaries are modelled as association
  lists with unique keys (JS object keys are unique); JS strict equality on
  strings is Lean equality; timers are modelled by explicit scheduled fire
  times; the single-threaded event loop is modelled by labelled transition
  systems whose steps are the synchronous segments of the JS code.
-/

namespace PolyIface

/-! ### Association list helpers (JS object operations) -/

/-- Keys of a JS object modelled as an association list. -/
def alKeys {β : Type} (l : List (String × β)) : List String :=
  l.map Prod.fst

theorem alKeys_contains_iff_lookup_isSome {β : Type} (l : List (String × β)) (k : String) :
    (alKeys l).contains k = (l.lookup k).isSome := by
  induction l with
  | nil => rfl
  | cons p rest ih =>
    rcases p with ⟨a, b⟩
    by_cases h : k = a
    · subst h
      simp [alKeys, List.lookup]
    · have hb : (k == a) = false := beq_false_of_ne h
      simp [alKeys, List.lookup, hb] at ih ⊢
      exact ih

theorem lookup_isSome_of_mem_keys {β : Type} (l : List (String × β)) (k : String)
    (h : k ∈ alKeys l) : (l.lookup k).isSome := by
  rw [← alKeys_contains_iff_lookup_isSome]
  simpa using h

/-! ### Config message data model (Interface.js, _onConfig input) -/

/-- One entry of config.newNodes.  Only the fields the interface reads are
modelled: address and primary (prefixed strings, sliced by 5 characters),
the node definition id used for the class lookup, and the name. -/
structure ConfigNode where
  address : String
  nodedef : String
  primary : String
  name : String
  deriving DecidableEq, Repr

/-- The config snapshot message.  customParams is optional because
_setParamsDetected explicitly guards for a missing customParams field. -/
structure ConfigMsg where
  newNodes : List ConfigNode
  customParams : Option (List (String × String)) := none
  deriving DecidableEq, Repr

/-- Object.keys(config.customParams) guarded as in _setParamsDetected:
empty when the config or its customParams field is missing. -/
def configParamKeys : Option ConfigMsg → List String
  | some c =>
    match c.customParams with
    | some ps => alKeys ps
    | none => []
  | none => []

/-- config.customParams[key] access (guarded by the key-containment test in
the source, so the default empty dictionary is never actually consulted). -/
def configParamLookup (c : Option ConfigMsg) (k : String) : Option String :=
  ((c.bind ConfigMsg.customParams).getD []).lookup k

/-- Interface._setParamsDetected (Interface.js lines 307-319): the flag it
stores into newConfig.newParamsDetected.  changedParams keeps exactly the
new-config keys that are absent from the old keys or whose values differ. -/
def setParamsDetected (oldConfig newConfig : Option ConfigMsg) : Bool :=
  let oldConfigParamsKeys := configParamKeys oldConfig
  let newConfigParamsKeys := configParamKeys newConfig
  let changedParams := newConfigParamsKeys.filter (fun key =>
    !(oldConfigParamsKeys.contains key &&
      (configParamLookup oldConfig key == configParamLookup newConfig key)))
  changedParams.length != 0

/-- Modelled from the spec: the parameters-changed flag as the spec words it,
true if any custom-parameter key was added, removed, or changed in value
versus the prior snapshot.  Used only to compare against the source
definition setParamsDetected. -/
def specParamsChangedFlag (oldConfig newConfig : Option ConfigMsg) : Bool :=
  ((configParamKeys newConfig).any (fun k =>
      configParamLookup oldConfig k != configParamLookup newConfig k)) ||
  ((configParamKeys oldConfig).any (fun k =>
      !(configParamKeys newConfig).contains k))

def c1OldConfig : ConfigMsg := { newNodes := [], customParams := some [("a", "1")] }

def c1NewConfig : ConfigMsg := { newNodes := [], customParams := some [] }

theorem configParamLookup_isSome_of_mem (c : Option ConfigMsg) (k : String)
    (h : k ∈ configParamKeys c) : (configParamLookup c k).isSome := by
  match c with
  | none => simp [configParamKeys] at h
  | some cm =>
    match hcp : cm.customParams with
    | none => simp [configParamKeys, hcp] at h
    | some ps =>
      simp only [configParamKeys, hcp] at h
      simpa [configParamLookup, hcp] using lookup_isSome_of_mem_keys ps k h

theorem configParamKeys_contains (c : Option ConfigMsg) (k : String) :
    (configParamKeys c).contains k = (configParamLookup c k).isSome := by
  match c with
  | none => simp [configParamKeys, configParamLookup]
  | some cm =>
    match hcp : cm.customParams with
    | none => simp [configParamKeys, configParamLookup, hcp]
    | some ps =>
      have h1 : configParamLookup (some cm) k = ps.lookup k := by
        simp [configParamLookup, hcp]
      have h2 : configParamKeys (some cm) = alKeys ps := by
        simp [configParamKeys, hcp]
      rw [h1, h2, alKeys_contains_iff_lookup_isSome]

/-- Claim C1, counterexample: removing custom parameter "a" (present in the
prior snapshot, absent from the new one) leaves the code-computed flag false
while the spec predicate (added, removed, or changed) is true, so the claimed
equivalence fails at this input. -/
theorem C1_counterexample :
    ¬ (setParamsDetected (some c1OldConfig) (some c1NewConfig) =
       specParamsChangedFlag (some c1OldConfig) (some c1NewConfig)) := by
  decide

/-- Claim C1, amended: the parameters-changed flag computed on the new
snapshot is true if and only if some custom-parameter key of the NEW snapshot
was added or changed in value relative to the prior snapshot (removed keys
alone are not detected; on the first snapshot the prior parameter set is
empty). -/
theorem C1_amended_thm (oldConfig newConfig : Option ConfigMsg) :
    setParamsDetected oldConfig newConfig = true ↔
    ∃ k, k ∈ configParamKeys newConfig ∧
      configParamLookup oldConfig k ≠ configParamLookup newConfig k := by
  have hpred : ∀ k, k ∈ configParamKeys newConfig →
      (((!((configParamKeys oldConfig).contains k &&
          (configParamLookup oldConfig k == configParamLookup newConfig k))) = true) ↔
        configParamLookup oldConfig k ≠ configParamLookup newConfig k) := by
    intro k hk
    obtain ⟨ln, hln⟩ :=
      Option.isSome_iff_exists.mp (configParamLookup_isSome_of_mem newConfig k hk)
    rw [configParamKeys_contains, hln]
    cases hlo : configParamLookup oldConfig k with
    | none => simp
    | some lo => simp
  rw [setParamsDetected]
  simp only [bne_iff_ne, ne_eq, List.length_eq_zero]
  constructor
  · intro h
    obtain ⟨k, hkf⟩ := List.exists_mem_of_ne_nil _ h
    obtain ⟨hkmem, hkp⟩ := List.mem_filter.mp hkf
    exact ⟨k, hkmem, (hpred k hkmem).mp hkp⟩
  · rintro ⟨k, hkmem, hkne⟩
    exact List.ne_nil_of_mem (List.mem_filter.mpr ⟨hkmem, (hpred k hkmem).mpr hkne⟩)

/-! ### The inbound queue (src/lib/Queue.js, class dataq)

The queue state carries the fields of the JS object (pool, Qprocessing,
qname) plus instrumentation recording the handler lifecycle: running is the
item whose handler promise is currently pending, started and finished record
the handler invocation and completion orders, and log records the lines
written by the catch handler.  External events are: an add call (arriving
message) and the settlement of the running handler promise (ok or error).
The then-callback (decrement and nextTick re-drain) is modelled atomically
with the settlement: nothing queue-internal can interleave between them, and
an interleaved add would start the next item itself, leaving the same state.
-/

structure QState (α : Type) where
  qname : String
  pool : List α
  Qprocessing : Nat
  running : Option α
  started : List α
  finished : List α
  log : List String
  deriving DecidableEq, Repr

/-- The log line of the catch branch in dataq.process: the queue name and the
value of this.Qprocessing at catch time (the error stack appended by
logger.errorStack is not modelled). -/
def queueErrorLog (qname : String) (processing : Nat) : String :=
  "Queue " ++ qname ++ " process error catched. Currently processing " ++
    toString processing ++ ":"

/-- dataq.process: if not processing and the pool is nonempty, increment
Qprocessing and invoke the handler on pool.shift() (instrumented by running
and started). -/
def qprocess {α : Type} (s : QState α) : QState α :=
  match s.Qprocessing, s.pool with
  | 0, h :: t =>
    { s with Qprocessing := 1, pool := t, running := some h,
             started := s.started ++ [h] }
  | _, _ => s

/-- dataq.add: push the item and call process. -/
def qadd {α : Type} (s : QState α) (item : α) : QState α :=
  qprocess { s with pool := s.pool ++ [item] }

/-- Settlement of the running handler promise.  On rejection the catch logs
(Qprocessing still counts the handler at that point); then the then-callback
decrements Qprocessing and re-drains.  None when no handler is running (no
such event can occur then). -/
def qdone {α : Type} (s : QState α) (ok : Bool) : Option (QState α) :=
  match s.running with
  | some h =>
    let s1 := if ok then s
      else { s with log := s.log ++ [queueErrorLog s.qname s.Qprocessing] }
    some (qprocess { s1 with running := none, finished := s1.finished ++ [h],
                             Qprocessing := s1.Qprocessing - 1 })
  | none => none

inductive QEvent (α : Type) where
  | enq (item : α)
  | done (ok : Bool)
  deriving DecidableEq, Repr

def runQueue {α : Type} (s : QState α) : List (QEvent α) → Option (QState α)
  | [] => some s
  | QEvent.enq a :: rest => runQueue (qadd s a) rest
  | QEvent.done ok :: rest =>
    match qdone s ok with
    | some s1 => runQueue s1 rest
    | none => none

def initQ {α : Type} (qname : String) : QState α :=
  ⟨qname, [], 0, none, [], [], []⟩

/-- Items of the enq events of a trace, in arrival order. -/
def enqItems {α : Type} : List (QEvent α) → List α
  | [] => []
  | QEvent.enq a :: rest => a :: enqItems rest
  | QEvent.done _ :: rest => enqItems rest

/-- Number of handler rejections in a trace. -/
def errCount {α : Type} : List (QEvent α) → Nat
  | [] => 0
  | QEvent.done false :: rest => errCount rest + 1
  | QEvent.enq _ :: rest => errCount rest
  | QEvent.done true :: rest => errCount rest

/-- Internal queue invariant: started items split into finished ones plus the
running one, Qprocessing counts the running handler, and an idle queue has an
empty pool. -/
def QInv {α : Type} (s : QState α) : Prop :=
  s.started = s.finished ++ s.running.toList ∧
  s.Qprocessing = s.running.toList.length ∧
  (s.running = none → s.pool = [])

theorem qadd_props {α : Type} (s : QState α) (a : α) (h : QInv s) :
    QInv (qadd s a) ∧
    (qadd s a).started ++ (qadd s a).pool = s.started ++ s.pool ++ [a] ∧
    (qadd s a).qname = s.qname ∧ (qadd s a).log = s.log ∧
    (qadd s a).finished = s.finished := by
  obtain ⟨h1, h2, h3⟩ := h
  match hr : s.running with
  | some r =>
    have hq : s.Qprocessing = 1 := by rw [h2, hr]; rfl
    have : qadd s a = { s with pool := s.pool ++ [a] } := by
      rw [qadd, qprocess]
      split
      · rename_i heq _
        rw [hq] at heq
        exact absurd heq (by simp)
      · rfl
    rw [this]
    refine ⟨⟨h1, h2, ?_⟩, by simp, rfl, rfl, rfl⟩
    intro hn
    rw [hr] at hn
    exact absurd hn (by simp)
  | none =>
    have hq : s.Qprocessing = 0 := by rw [h2, hr]; rfl
    have hp : s.pool = [] := h3 hr
    have : qadd s a = { s with Qprocessing := 1, pool := [], running := some a,
                               started := s.started ++ [a] } := by
      rw [qadd]
      rw [qprocess]
      simp [hq, hp]
    rw [this]
    have h1' : s.started = s.finished := by simpa [hr] using h1
    exact ⟨⟨by simp [h1'], by simp, by simp⟩, by simp [hp], rfl, rfl, rfl⟩

theorem qdone_props {α : Type} (s : QState α) (ok : Bool) (s' : QState α)
    (h : QInv s) (hstep : qdone s ok = some s') :
    QInv s' ∧
    s'.started ++ s'.pool = s.started ++ s.pool ∧
    s'.qname = s.qname ∧
    s'.log = s.log ++ (if ok then [] else [queueErrorLog s.qname 1]) := by
  obtain ⟨h1, h2, h3⟩ := h
  match hr : s.running with
  | none => rw [qdone, hr] at hstep; exact absurd hstep (by simp)
  | some r =>
    have hq : s.Qprocessing = 1 := by rw [h2, hr]; rfl
    have h1' : s.started = s.finished ++ [r] := by simpa [hr] using h1
    rw [qdone, hr] at hstep
    match ok with
    | true =>
      injection hstep with hstep
      subst hstep
      match hp : s.pool with
      | [] =>
        refine ⟨⟨?_, ?_, ?_⟩, ?_, ?_, ?_⟩ <;> simp [qprocess, hq, hp, h1']
      | p :: t =>
        refine ⟨⟨?_, ?_, ?_⟩, ?_, ?_, ?_⟩ <;> simp [qprocess, hq, hp, h1']
    | false =>
      injection hstep with hstep
      subst hstep
      match hp : s.pool with
      | [] =>
        refine ⟨⟨?_, ?_, ?_⟩, ?_, ?_, ?_⟩ <;> simp [qprocess, hq, hp, h1']
      | p :: t =>
        refine ⟨⟨?_, ?_, ?_⟩, ?_, ?_, ?_⟩ <;> simp [qprocess, hq, hp, h1']

theorem runQueue_props {α : Type} (tr : List (QEvent α)) :
    ∀ s s' : QState α, runQueue s tr = some s' → QInv s →
      QInv s' ∧ s'.qname = s.qname ∧
      s'.started ++ s'.pool = s.started ++ s.pool ++ enqItems tr ∧
      s'.log = s.log ++ List.replicate (errCount tr) (queueErrorLog s.qname 1) := by
  induction tr with
  | nil =>
    intro s s' hrun hinv
    rw [runQueue] at hrun
    cases Option.some_injective _ hrun
    exact ⟨hinv, rfl, by simp [enqItems], by simp [errCount]⟩
  | cons e rest ih =>
    intro s s' hrun hinv
    match e with
    | QEvent.enq a =>
      rw [runQueue] at hrun
      obtain ⟨hinv1, hitems, hqname1, hlog1, _⟩ := qadd_props s a hinv
      obtain ⟨hinv', hqname', hitems', hlog'⟩ := ih (qadd s a) s' hrun hinv1
      refine ⟨hinv', hqname'.trans hqname1, ?_, ?_⟩
      · rw [hitems', hitems, enqItems]
        simp
      · rw [hlog', hlog1, hqname1, errCount]
    | QEvent.done ok =>
      rw [runQueue] at hrun
      match hd : qdone s ok with
      | none => rw [hd] at hrun; exact absurd hrun (by simp)
      | some s1 =>
        rw [hd] at hrun
        obtain ⟨hinv1, hitems, hqname1, hlog1⟩ := qdone_props s ok s1 hinv hd
        obtain ⟨hinv', hqname', hitems', hlog'⟩ := ih s1 s' hrun hinv1
        refine ⟨hinv', hqname'.trans hqname1, ?_, ?_⟩
        · rw [hitems', hitems, enqItems]
        · rw [hlog', hlog1, hqname1]
          match ok with
          | true => simp [errCount]
          | false =>
            rw [errCount]
            simp [List.replicate_succ]

/-- Claim C3 (confirmed): in every possible run of the queue, handlers start
in exact arrival (FIFO) order (started items followed by the still-pooled
items reconstruct the arrival list), at most one handler is in flight
(Qprocessing never exceeds 1, and every started handler except the running
one has already completed, so a handler completion is awaited before the next
dequeue), and once the queue is idle every one of the N enqueued items has
been started and finished exactly once, in order. -/
theorem C3_fifo_single_flight {α : Type} (qn : String) (tr : List (QEvent α))
    (s : QState α) (h : runQueue (initQ qn) tr = some s) :
    s.started ++ s.pool = enqItems tr ∧
    s.started = s.finished ++ s.running.toList ∧
    s.Qprocessing ≤ 1 ∧
    (s.running = none → s.started = enqItems tr ∧ s.finished = enqItems tr) := by
  have hinit : QInv (initQ (α := α) qn) := ⟨rfl, rfl, fun _ => rfl⟩
  obtain ⟨⟨h1, h2, h3⟩, _, hitems, _⟩ := runQueue_props tr (initQ qn) s h hinit
  have hitems' : s.started ++ s.pool = enqItems tr := by
    simpa [initQ] using hitems
  refine ⟨hitems', h1, ?_, ?_⟩
  · rw [h2]
    match s.running with
    | none => exact Nat.zero_le 1
    | some r => exact Nat.le_refl 1
  · intro hr
    have hpool : s.pool = [] := h3 hr
    have hstart : s.started = enqItems tr := by simpa [hpool] using hitems'
    refine ⟨hstart, ?_⟩
    rw [← hstart, h1, hr]
    simp

theorem C3_witness :
    runQueue (initQ (α := Nat) "Message Queue Processor")
        [QEvent.enq 1, QEvent.done true, QEvent.enq 2, QEvent.enq 3,
         QEvent.done true, QEvent.done true] = some
      ⟨"Message Queue Processor", [], 0, none, [1, 2, 3], [1, 2, 3], []⟩ ∧
    ([1, 2, 3] ++ [] = enqItems [QEvent.enq 1, QEvent.done true, QEvent.enq 2,
        QEvent.enq 3, QEvent.done true, QEvent.done (α := Nat) true]) := by
  refine ⟨by decide, ?_⟩
  have := C3_fifo_single_flight "Message Queue Processor"
    [QEvent.enq 1, QEvent.done true, QEvent.enq 2, QEvent.enq 3,
     QEvent.done true, QEvent.done true]
    ⟨"Message Queue Processor", [], 0, none, [1, 2, 3], [1, 2, 3], []⟩ (by decide)
  exact this.1

/-- Leading-segment test on character lists. -/
def charsHasLead : List Char → List Char → Bool
  | [], _ => true
  | _ :: _, [] => false
  | c :: cs, d :: ds => c == d && charsHasLead cs ds

/-- Containment of a pattern anywhere in a character list. -/
def charsContains (pat : List Char) : List Char → Bool
  | [] => pat.isEmpty
  | c :: rest => charsHasLead pat (c :: rest) || charsContains pat rest

/-- JS-like substring containment test. -/
def strContains (s pat : String) : Bool := charsContains pat.data s.data

/-- Claim C9, counterexample: an item of kind shortPoll whose handler errors
produces exactly one catch log line, and that line does not mention the item
kind anywhere (the source logs the queue name, not the item kind), refuting
the claim that the error is logged with the item kind. -/
theorem C9_counterexample :
    (runQueue (initQ "Message Queue Processor")
        [QEvent.enq "shortPoll", QEvent.done false]).map
      (fun s => (s.log.length, s.log.all (fun line => !strContains line "shortPoll")))
      = some (1, true) := by
  decide

/-- Claim C9, amended: for every queued item whose handler raises an error,
the error does not escape the queue: it is caught and logged with the QUEUE
NAME (not the item kind) and the current in-flight count (1 at catch time),
the worker count returns to idle, and processing of subsequent queued items
continues (an idle queue has finished every enqueued item). -/
theorem C9_amended_thm {α : Type} (qn : String) (tr : List (QEvent α))
    (s : QState α) (h : runQueue (initQ qn) tr = some s) :
    s.log = List.replicate (errCount tr) (queueErrorLog qn 1) ∧
    (s.running = none → s.Qprocessing = 0 ∧ s.finished = enqItems tr) := by
  have hinit : QInv (initQ (α := α) qn) := ⟨rfl, rfl, fun _ => rfl⟩
  obtain ⟨⟨h1, h2, h3⟩, _, hitems, hlog⟩ := runQueue_props tr (initQ qn) s h hinit
  refine ⟨by simpa [initQ] using hlog, ?_⟩
  intro hr
  have hpool : s.pool = [] := h3 hr
  have hstart : s.started = enqItems tr := by
    have : s.started ++ s.pool = enqItems tr := by simpa [initQ] using hitems
    simpa [hpool] using this
  refine ⟨by rw [h2, hr]; rfl, ?_⟩
  rw [← hstart, h1, hr]
  simp

theorem C9_witness :
    runQueue (initQ "Message Queue Processor")
        [QEvent.enq "config", QEvent.done false, QEvent.enq "query",
         QEvent.done true] = some
      ⟨"Message Queue Processor", [], 0, none, ["config", "query"],
       ["config", "query"],
       [queueErrorLog "Message Queue Processor" 1]⟩ ∧
    [queueErrorLog "Message Queue Processor" 1] =
      List.replicate (errCount [QEvent.enq "config", QEvent.done false,
        QEvent.enq "query", QEvent.done (α := String) true])
        (queueErrorLog "Message Queue Processor" 1) := by
  refine ⟨by decide, ?_⟩
  have := C9_amended_thm "Message Queue Processor"
    [QEvent.enq "config", QEvent.done false, QEvent.enq "query", QEvent.done true]
    ⟨"Message Queue Processor", [], 0, none, ["config", "query"],
     ["config", "query"], [queueErrorLog "Message Queue Processor" 1]⟩ (by decide)
  exact this.1

/-! ### Device registry reconciliation (Interface.js, _onConfig)

The registry this._nodes is an association list keyed by the sliced address
(JS object: unique keys, insertion order).  A registry node keeps the fields
set at construction; the per-node property merge (controller, drivers,
isprimary, profileNum, timeAdded) mutates fields of the existing object in
place and never changes the key set, which is all the claims below depend
on, so the merged property values are not modelled further.
-/

structure NodeObj where
  id : String
  primary : String
  address : String
  name : String
  deriving DecidableEq, Repr

/-- First phase of _onConfig (lines 348-384): for each config node, if its
sliced address is not in the registry, construct it through the declared
class lookup (unknown nodedef ids are logged and skipped); existing nodes are
updated in place (key set unchanged). -/
def addNodesPhase (nodeClasses : List String) (nodes : List (String × NodeObj)) :
    List ConfigNode → List (String × NodeObj)
  | [] => nodes
  | n :: rest =>
    let address := n.address.drop 5
    let nodes' :=
      match nodes.lookup address with
      | some _ => nodes
      | none =>
        if nodeClasses.contains n.nodedef then
          nodes ++ [(address, ⟨n.nodedef, n.primary.drop 5, address, n.name⟩)]
        else
          nodes
    addNodesPhase nodeClasses nodes' rest

/-- Second phase of _onConfig (lines 386-398): remove registry nodes that are
no longer in the config, but only when config.newNodes.length differs from
the number of registry keys after the first phase. -/
def removePhase (nodes : List (String × NodeObj)) (newNodes : List ConfigNode) :
    List (String × NodeObj) :=
  if newNodes.length != (alKeys nodes).length then
    nodes.filter (fun kv =>
      newNodes.any (fun n => kv.fst == n.address.drop 5))
  else
    nodes

/-- The full registry update of one snapshot. -/
def registryUpdate (nodeClasses : List String) (nodes : List (String × NodeObj))
    (cfg : ConfigMsg) : List (String × NodeObj) :=
  removePhase (addNodesPhase nodeClasses nodes cfg.newNodes) cfg.newNodes

/-- Interface state relevant to config processing: the registry, the last
stored config and the loop-guard counter. -/
structure IfaceState where
  nodes : List (String × NodeObj)
  config : Option ConfigMsg
  configCounter : Nat
  deriving DecidableEq, Repr

/-- Interface._detectConfigLoop (lines 420-430): increment the counter
(whose decrement is scheduled 10 seconds later, modelled by the timed runner
below) and report a loop when the incremented counter exceeds 30. -/
def detectConfigLoop (counter : Nat) : Nat × Bool :=
  (counter + 1, decide (30 < counter + 1))

/-- The payload of the config event emitted at the end of _onConfig
(Object.assign over the received config). -/
structure Emitted where
  cfg : ConfigMsg
  isInitialConfig : Bool
  nodes : List (String × NodeObj)
  newParamsDetected : Bool
  deriving DecidableEq, Repr

/-- Interface._onConfig (lines 322-417): update the registry, compute the
parameters-changed flag, store the config, and emit the config event unless
the loop guard trips (in which case only the error is logged). -/
def onConfig (nodeClasses : List String) (st : IfaceState) (cfg : ConfigMsg) :
    IfaceState × Option Emitted :=
  let isInitialConfig := st.config.isNone
  let newNodes := registryUpdate nodeClasses st.nodes cfg
  let newParamsDetected := setParamsDetected st.config (some cfg)
  let dl := detectConfigLoop st.configCounter
  ({ nodes := newNodes, config := some cfg, configCounter := dl.1 },
   if dl.2 then none
   else some { cfg := cfg, isInitialConfig := isInitialConfig,
               nodes := newNodes, newParamsDetected := newParamsDetected })

def c2NodeObj : NodeObj := ⟨"GOOD", "node1", "node1", "Node One"⟩

def c2State : IfaceState := { nodes := [("node1", c2NodeObj)], config := none, configCounter := 0 }

def c2Config : ConfigMsg :=
  { newNodes := [⟨"00000node2", "BAD", "00000node2", "Node Two"⟩], customParams := none }

/-- Claim C2, failing run: the registry holds node1, the snapshot lists only
node2, whose nodedef BAD is not a declared class, so node2 is skipped by the
first phase; the registry then still has exactly one key, the removal phase
guard (newNodes.length equal to the registry size) skips removal, and the
stale node1 survives even though its address is absent from the snapshot. -/
theorem C2_code_bug_eval :
    (((onConfig ["GOOD"] c2State c2Config).1.nodes.lookup "node1").isSome = true) ∧
    (c2Config.newNodes.all (fun n => n.address.drop 5 != "node1") = true) := by
  constructor
  · rfl
  · rfl

/-! ### Timed model of the loop guard (Interface.js, _detectConfigLoop)

Each processed snapshot increments _configCounter and schedules a decrement
via setTimeout 10 seconds later.  The timed runner keeps the multiset of
scheduled decrement fire times; before processing a snapshot arriving at
time t, every decrement whose fire time is at most t has fired (model
assumption: due timer callbacks run before the message handler). -/

structure TimedState where
  st : IfaceState
  pending : List Nat
  deriving DecidableEq, Repr

/-- Fire all scheduled decrements due at or before time t. -/
def fireDue (t : Nat) (ts : TimedState) : TimedState :=
  { st := { ts.st with configCounter :=
              ts.st.configCounter - ts.pending.countP (fun d => decide (d ≤ t)) },
    pending := ts.pending.filter (fun d => decide (t < d)) }

/-- Process one snapshot arriving at time arrival.1: fire due decrements,
run _onConfig (whose _detectConfigLoop increments the counter), and schedule
the decrement of this snapshot 10000 ms later. -/
def timedStep (nc : List String) (ts : TimedState) (arrival : Nat × ConfigMsg) :
    TimedState × Option Emitted :=
  let ts1 := fireDue arrival.1 ts
  let r := onConfig nc ts1.st arrival.2
  (⟨r.1, ts1.pending ++ [arrival.1 + 10000]⟩, r.2)

def runTimed (nc : List String) (ts : TimedState) :
    List (Nat × ConfigMsg) → TimedState × List (Option Emitted)
  | [] => (ts, [])
  | a :: rest =>
    let r := timedStep nc ts a
    let rr := runTimed nc r.1 rest
    (rr.1, r.2 :: rr.2)

def initTimed : TimedState := ⟨⟨[], none, 0⟩, []⟩

/-- Number of snapshots among the first i+1 (plus given past arrival times)
that are still inside the 10-second window ending at arrival i. -/
def windowCountFrom (past times : List Nat) (i : Nat) : Nat :=
  ((past ++ times.take (i + 1)).filter
    (fun tj => decide (times.getD i 0 < tj + 10000))).length

def windowCount (times : List Nat) (i : Nat) : Nat := windowCountFrom [] times i

theorem runTimed_cons_fst (nc : List String) (ts : TimedState)
    (a : Nat × ConfigMsg) (rest : List (Nat × ConfigMsg)) :
    (runTimed nc ts (a :: rest)).1 = (runTimed nc (timedStep nc ts a).1 rest).1 := rfl

theorem runTimed_cons_snd (nc : List String) (ts : TimedState)
    (a : Nat × ConfigMsg) (rest : List (Nat × ConfigMsg)) :
    (runTimed nc ts (a :: rest)).2 =
      (timedStep nc ts a).2 :: (runTimed nc (timedStep nc ts a).1 rest).2 := rfl

theorem timedStep_nodes (nc : List String) (ts : TimedState) (a : Nat × ConfigMsg) :
    (timedStep nc ts a).1.st.nodes = registryUpdate nc ts.st.nodes a.2 := rfl

/-- The registry evolution is independent of the loop guard: every snapshot
updates the registry, whether or not its event is suppressed. -/
theorem runTimed_nodes (nc : List String) (arrivals : List (Nat × ConfigMsg)) :
    ∀ ts : TimedState,
      (runTimed nc ts arrivals).1.st.nodes =
        (arrivals.map Prod.snd).foldl
          (fun nodes cfg => registryUpdate nc nodes cfg) ts.st.nodes := by
  induction arrivals with
  | nil => intro ts; rfl
  | cons a rest ih =>
    intro ts
    rw [runTimed_cons_fst, ih (timedStep nc ts a).1, timedStep_nodes]
    rfl

theorem length_sub_countP (b : Nat) (m : List Nat) :
    m.length - m.countP (fun d => decide (d ≤ b)) =
      (m.filter (fun d => decide (b < d))).length := by
  induction m with
  | nil => rfl
  | cons x tl ih =>
    have hle := List.countP_le_length (p := fun d => decide (d ≤ b)) (l := tl)
    by_cases hx : x ≤ b
    · have h2 : ¬ b < x := Nat.not_lt.mpr hx
      simp [List.countP_cons, List.filter_cons, hx, h2]
      omega
    · have h2 : b < x := Nat.lt_of_not_le hx
      simp [List.countP_cons, List.filter_cons, hx, h2]
      omega

theorem filter_lt_filter_lt (a b : Nat) (hab : a ≤ b) (l : List Nat) :
    (l.filter (fun d => decide (a < d))).filter (fun d => decide (b < d)) =
      l.filter (fun d => decide (b < d)) := by
  induction l with
  | nil => rfl
  | cons x tl ih =>
    by_cases hbx : b < x
    · have hax : a < x := Nat.lt_of_le_of_lt hab hbx
      simp [List.filter_cons, hax, hbx, ih]
    · by_cases hax : a < x
      · simp [List.filter_cons, hax, hbx, ih]
      · simp [List.filter_cons, hax, hbx, ih]

theorem filter_length_map_shift (c : Nat) (l : List Nat) :
    ((l.map (fun d => d + 10000)).filter (fun d => decide (c < d))).length =
      (l.filter (fun tj => decide (c < tj + 10000))).length := by
  induction l with
  | nil => rfl
  | cons x tl ih =>
    by_cases h : c < x + 10000
    · simp [List.filter_cons, h, ih]
    · simp [List.filter_cons, h, ih]

/-- Core characterization of the timed runs: starting from a state whose
counter equals the number of still-pending decrements of the past arrivals,
snapshot i of a time-ordered arrival list is suppressed (output none) exactly
when the count of snapshots inside its 10-second sliding window exceeds 30. -/
theorem runTimed_none_iff (nc : List String) (arrivals : List (Nat × ConfigMsg)) :
    ∀ (past : List Nat) (tprev : Nat) (st : IfaceState),
      st.configCounter =
        ((past.map (fun d => d + 10000)).filter (fun d => decide (tprev < d))).length →
      List.Chain' (· ≤ ·) (tprev :: arrivals.map Prod.fst) →
      ∀ i, i < arrivals.length →
        ((runTimed nc ⟨st, (past.map (fun d => d + 10000)).filter
              (fun d => decide (tprev < d))⟩ arrivals).2[i]? = some none ↔
          30 < windowCountFrom past (arrivals.map Prod.fst) i) := by
  induction arrivals with
  | nil =>
    intro past tprev st hc hchain i hi
    simp at hi
  | cons a rest ih =>
    intro past tprev st hc hchain i hi
    obtain ⟨t, cfg⟩ := a
    rw [List.map_cons, List.chain'_cons] at hchain
    obtain ⟨htprev, hchain'⟩ := hchain
    have hP2 : ((past.map (fun d => d + 10000)).filter
          (fun d => decide (tprev < d))).filter (fun d => decide (t < d)) =
        (past.map (fun d => d + 10000)).filter (fun d => decide (t < d)) :=
      filter_lt_filter_lt tprev t htprev _
    have hlt10 : decide (t < t + 10000) = true := by
      simp
    have hpastshift : ((past ++ [t]).map (fun d => d + 10000)).filter
          (fun d => decide (t < d)) =
        (past.map (fun d => d + 10000)).filter (fun d => decide (t < d)) ++
          [t + 10000] := by
      rw [List.map_append, List.filter_append]
      simp [hlt10]
    -- the counter value seen by _detectConfigLoop at this snapshot
    have hcount : st.configCounter -
          ((past.map (fun d => d + 10000)).filter
            (fun d => decide (tprev < d))).countP (fun d => decide (d ≤ t)) =
        ((past.map (fun d => d + 10000)).filter (fun d => decide (t < d))).length := by
      rw [hc, length_sub_countP, hP2]
    have hstep1 : (timedStep nc ⟨st, (past.map (fun d => d + 10000)).filter
          (fun d => decide (tprev < d))⟩ (t, cfg)).1 =
        ⟨(onConfig nc { st with configCounter :=
            ((past.map (fun d => d + 10000)).filter
              (fun d => decide (t < d))).length } cfg).1,
         ((past ++ [t]).map (fun d => d + 10000)).filter
           (fun d => decide (t < d))⟩ := by
      rw [timedStep]
      simp only [fireDue, hcount, hP2, hpastshift]
    have hstep2 : (timedStep nc ⟨st, (past.map (fun d => d + 10000)).filter
          (fun d => decide (tprev < d))⟩ (t, cfg)).2 =
        (onConfig nc { st with configCounter :=
            ((past.map (fun d => d + 10000)).filter
              (fun d => decide (t < d))).length } cfg).2 := by
      rw [timedStep]
      simp only [fireDue, hcount]
    match i with
    | 0 =>
      rw [runTimed_cons_snd, List.getElem?_cons_zero, hstep2]
      have hwin : windowCountFrom past (((t, cfg) :: rest).map Prod.fst) 0 =
          ((past.map (fun d => d + 10000)).filter
            (fun d => decide (t < d))).length + 1 := by
        rw [windowCountFrom]
        simp only [List.map_cons, List.getD_cons_zero, List.take_succ_cons,
          List.take_zero, List.filter_append]
        rw [filter_length_map_shift]
        simp [hlt10]
      rw [hwin, onConfig]
      simp only [detectConfigLoop]
      by_cases hloop : 30 < ((past.map (fun d => d + 10000)).filter
          (fun d => decide (t < d))).length + 1
      · simp [hloop]
      · simp [hloop]
    | j + 1 =>
      rw [runTimed_cons_snd, List.getElem?_cons_succ, hstep1]
      have hcfg1 : (onConfig nc { st with configCounter :=
            ((past.map (fun d => d + 10000)).filter
              (fun d => decide (t < d))).length } cfg).1.configCounter =
          (((past ++ [t]).map (fun d => d + 10000)).filter
            (fun d => decide (t < d))).length := by
        rw [onConfig, hpastshift]
        simp [detectConfigLoop]
      have hwin : windowCountFrom past (((t, cfg) :: rest).map Prod.fst) (j + 1) =
          windowCountFrom (past ++ [t]) (rest.map Prod.fst) j := by
        rw [windowCountFrom, windowCountFrom]
        simp [List.take_succ_cons, List.getD_cons_succ, List.append_assoc]
      rw [hwin]
      have hj : j < rest.length := by
        simpa using Nat.lt_of_succ_lt_succ (by simpa using hi)
      exact ih (past ++ [t]) t _ hcfg1 hchain' j hj

/-- Claim C5 (confirmed): for a time-ordered sequence of snapshots, snapshot
i emits no config event exactly when more than 30 snapshots are counted
inside its 10-second sliding window (each snapshot increments the counter
and its decrement fires 10 seconds later), so once enough decrements have
fired the next snapshot emits normally again; and the registry is updated by
every snapshot regardless of suppression. -/
theorem C5_loop_guard (nc : List String) (arrivals : List (Nat × ConfigMsg))
    (hmono : List.Chain' (· ≤ ·) (arrivals.map Prod.fst))
    (i : Nat) (hi : i < arrivals.length) :
    ((runTimed nc initTimed arrivals).2[i]? = some none ↔
      30 < windowCount (arrivals.map Prod.fst) i) ∧
    (runTimed nc initTimed arrivals).1.st.nodes =
      (arrivals.map Prod.snd).foldl (fun nodes cfg => registryUpdate nc nodes cfg) [] := by
  constructor
  · have hchain : List.Chain' (· ≤ ·) (0 :: arrivals.map Prod.fst) := by
      rw [List.chain'_cons']
      exact ⟨fun b _ => Nat.zero_le b, hmono⟩
    have h := runTimed_none_iff nc arrivals [] 0 ⟨[], none, 0⟩ rfl hchain i hi
    rw [windowCount]
    simpa [initTimed] using h
  · exact runTimed_nodes nc arrivals initTimed

theorem C5_witness :
    List.Chain' (· ≤ ·) ([((0 : Nat), ConfigMsg.mk [] none)].map Prod.fst) ∧
    0 < [((0 : Nat), ConfigMsg.mk [] none)].length ∧
    (((runTimed [] initTimed [((0 : Nat), ConfigMsg.mk [] none)]).2[0]? = some none ↔
        30 < windowCount ([((0 : Nat), ConfigMsg.mk [] none)].map Prod.fst) 0) ∧
      (runTimed [] initTimed [((0 : Nat), ConfigMsg.mk [] none)]).1.st.nodes =
        ([((0 : Nat), ConfigMsg.mk [] none)].map Prod.snd).foldl
          (fun nodes cfg => registryUpdate [] nodes cfg) []) := by
  refine ⟨by simp, by simp, C5_loop_guard [] _ (by simp) 0 (by simp)⟩

/-! ### Correlation table (Interface.js, sendMessageAsync, lines 557-601)

Labelled transition system for the calls of sendMessageAsync on one fixed
key.  A call reads _messageAsyncTracking[key] synchronously at call time: if
no tracker exists it publishes and registers itself atomically (the promise
executor runs synchronously); otherwise it awaits the promise captured at
call time and, on a later resume event (allowed once that promise has
settled), publishes and registers itself.  A settle event (result message,
rejection or timeout, outcome irrelevant) settles an outstanding request.
The clock numbers the publish/settle events so that their order is
recorded. -/

inductive CallPhase where
  | waiting
  | outstanding
  | settledP
  deriving DecidableEq, Repr

structure CallRec where
  prior : Option Nat
  phase : CallPhase
  pubAt : Option Nat
  stlAt : Option Nat
  deriving DecidableEq, Repr

structure CorrState where
  calls : List CallRec
  tracking : Option Nat
  clock : Nat
  deriving DecidableEq, Repr

inductive CorrAction where
  | call
  | settle (i : Nat)
  | resume (i : Nat)
  deriving DecidableEq, Repr

def corrStep (s : CorrState) : CorrAction → Option CorrState
  | CorrAction.call =>
    match s.tracking with
    | none =>
      some { calls := s.calls ++ [⟨none, CallPhase.outstanding, some s.clock, none⟩],
             tracking := some s.calls.length, clock := s.clock + 1 }
    | some j =>
      some { s with calls := s.calls ++ [⟨some j, CallPhase.waiting, none, none⟩] }
  | CorrAction.settle i =>
    match s.calls[i]? with
    | some r =>
      if r.phase = CallPhase.outstanding then
        some { s with
               calls := s.calls.set i
                 { r with phase := CallPhase.settledP, stlAt := some s.clock },
               clock := s.clock + 1 }
      else none
    | none => none
  | CorrAction.resume i =>
    match s.calls[i]? with
    | some r =>
      match r.prior with
      | some j =>
        match s.calls[j]? with
        | some rj =>
          if r.phase = CallPhase.waiting ∧ rj.phase = CallPhase.settledP then
            some { calls := s.calls.set i
                     { r with phase := CallPhase.outstanding, pubAt := some s.clock },
                   tracking := some i, clock := s.clock + 1 }
          else none
        | none => none
      | none => none
    | none => none

def runCorr (s : CorrState) : List CorrAction → Option CorrState
  | [] => some s
  | a :: rest =>
    match corrStep s a with
    | some s1 => runCorr s1 rest
    | none => none

def corrInit : CorrState := ⟨[], none, 0⟩

def outstandingCount (s : CorrState) : Nat :=
  s.calls.countP (fun r => r.phase == CallPhase.outstanding)

/-- Every publish of a call that found a tracked request at call time
happens strictly after that request settled. -/
def PublishAfterPrior (s : CorrState) : Prop :=
  ∀ (i : Nat) (r : CallRec), s.calls[i]? = some r →
    ∀ j, r.prior = some j → ∀ p, r.pubAt = some p →
      ∃ rj : CallRec, s.calls[j]? = some rj ∧ ∃ q, rj.stlAt = some q ∧ q < p

/-- Internal invariant of the correlation LTS. -/
def CorrInv (s : CorrState) : Prop :=
  (∀ j, s.tracking = some j → j < s.calls.length) ∧
  (∀ (i : Nat) (r : CallRec), s.calls[i]? = some r →
    (∀ p, r.pubAt = some p → p < s.clock) ∧
    (∀ q, r.stlAt = some q → q < s.clock) ∧
    (r.phase = CallPhase.settledP ↔ r.stlAt.isSome) ∧
    (∀ j, r.prior = some j → j < i)) ∧
  PublishAfterPrior s

theorem getElem?_append_singleton {γ : Type} (l : List γ) (x : γ) (i : Nat) (r : γ)
    (h : (l ++ [x])[i]? = some r) :
    (i < l.length ∧ l[i]? = some r) ∨ (i = l.length ∧ r = x) := by
  by_cases hi : i < l.length
  · rw [List.getElem?_append_left hi] at h
    exact Or.inl ⟨hi, h⟩
  · have hge : l.length ≤ i := Nat.le_of_not_lt hi
    by_cases he : i = l.length
    · subst he
      rw [List.getElem?_concat_length] at h
      injection h with h
      exact Or.inr ⟨rfl, h.symm⟩
    · rw [List.getElem?_append_right hge] at h
      have hnone : [x][i - l.length]? = none := by
        apply List.getElem?_eq_none
        simp only [List.length_singleton]
        omega
      rw [hnone] at h
      cases h

theorem corrStep_inv (s : CorrState) (a : CorrAction) (s' : CorrState)
    (hstep : corrStep s a = some s') (h : CorrInv s) : CorrInv s' := by
  obtain ⟨htrk, hrec, hpub⟩ := h
  match a with
  | CorrAction.call =>
    rw [corrStep] at hstep
    match htk : s.tracking with
    | none =>
      rw [htk] at hstep
      injection hstep with hstep
      subst hstep
      refine ⟨?_, ?_, ?_⟩
      · intro j hj
        have hj2 : some s.calls.length = some j := hj
        injection hj2 with hj2
        subst hj2
        simp [List.length_append]
      · intro i r hir
        rcases getElem?_append_singleton _ _ _ _ hir with ⟨hi, hir'⟩ | ⟨hi, hr⟩
        · obtain ⟨h1, h2, h3, h4⟩ := hrec i r hir'
          exact ⟨fun p hp => Nat.lt_succ_of_lt (h1 p hp),
                 fun q hq => Nat.lt_succ_of_lt (h2 q hq), h3, h4⟩
        · subst hr
          refine ⟨?_, ?_, ?_, ?_⟩
          · intro p hp
            have hp2 : some s.clock = some p := hp
            injection hp2 with hp2
            exact Nat.lt_succ_of_le (Nat.le_of_eq hp2.symm)
          · intro q hq
            exact Option.noConfusion (show (none : Option Nat) = some q from hq)
          · constructor
            · intro hph
              exact absurd
                (show CallPhase.outstanding = CallPhase.settledP from hph) (by decide)
            · intro hs
              exact absurd (show (none : Option Nat).isSome = true from hs) (by decide)
          · intro j hj
            exact Option.noConfusion (show (none : Option Nat) = some j from hj)
      · intro i r hir j hj p hp
        rcases getElem?_append_singleton _ _ _ _ hir with ⟨hi, hir'⟩ | ⟨hi, hr⟩
        · obtain ⟨rj, hrj, q, hq, hqp⟩ := hpub i r hir' j hj p hp
          obtain ⟨_, _, _, h4⟩ := hrec i r hir'
          have hjlt : j < s.calls.length := Nat.lt_trans (h4 j hj) hi
          refine ⟨rj, ?_, q, hq, hqp⟩
          rw [List.getElem?_append_left hjlt]
          exact hrj
        · subst hr
          exact Option.noConfusion (show (none : Option Nat) = some j from hj)
    | some j0 =>
      rw [htk] at hstep
      injection hstep with hstep
      subst hstep
      refine ⟨?_, ?_, ?_⟩
      · intro j hj
        have hj2 : some j0 = some j := hj
        injection hj2 with hj2
        subst hj2
        have := htrk j0 htk
        simp only [List.length_append, List.length_singleton]
        omega
      · intro i r hir
        rcases getElem?_append_singleton _ _ _ _ hir with ⟨hi, hir'⟩ | ⟨hi, hr⟩
        · exact hrec i r hir'
        · subst hr
          refine ⟨?_, ?_, ?_, ?_⟩
          · intro p hp
            exact Option.noConfusion (show (none : Option Nat) = some p from hp)
          · intro q hq
            exact Option.noConfusion (show (none : Option Nat) = some q from hq)
          · constructor
            · intro hph
              exact absurd
                (show CallPhase.waiting = CallPhase.settledP from hph) (by decide)
            · intro hs
              exact absurd (show (none : Option Nat).isSome = true from hs) (by decide)
          · intro j hj
            have hj2 : some j0 = some j := hj
            injection hj2 with hj2
            subst hj2
            rw [hi]
            exact htrk j0 htk
      · intro i r hir j hj p hp
        rcases getElem?_append_singleton _ _ _ _ hir with ⟨hi, hir'⟩ | ⟨hi, hr⟩
        · obtain ⟨rj, hrj, q, hq, hqp⟩ := hpub i r hir' j hj p hp
          obtain ⟨_, _, _, h4⟩ := hrec i r hir'
          have hjlt : j < s.calls.length := Nat.lt_trans (h4 j hj) hi
          refine ⟨rj, ?_, q, hq, hqp⟩
          rw [List.getElem?_append_left hjlt]
          exact hrj
        · subst hr
          exact Option.noConfusion (show (none : Option Nat) = some p from hp)
  | CorrAction.settle i0 =>
    rw [corrStep] at hstep
    match hci : s.calls[i0]? with
    | none =>
      rw [hci] at hstep
      exact Option.noConfusion hstep
    | some r0 =>
      simp only [hci] at hstep
      by_cases hph : r0.phase = CallPhase.outstanding
      · rw [if_pos hph] at hstep
        injection hstep with hstep
        subst hstep
        obtain ⟨hr1, hr2, hr3, hr4⟩ := hrec i0 r0 hci
        have hstl : r0.stlAt = none := by
          cases h0 : r0.stlAt with
          | none => rfl
          | some q =>
            have hset : r0.phase = CallPhase.settledP := hr3.mpr (by simp [h0])
            rw [hph] at hset
            exact absurd hset (by decide)
        have hi0lt : i0 < s.calls.length := by
          obtain ⟨hlt, _⟩ := List.getElem?_eq_some.mp hci
          exact hlt
        refine ⟨?_, ?_, ?_⟩
        · intro j hj
          have := htrk j hj
          simpa [List.length_set] using this
        · intro i r hir
          by_cases hii : i = i0
          · subst hii
            rw [List.getElem?_set_self hi0lt] at hir
            injection hir with hir
            subst hir
            refine ⟨?_, ?_, ?_, ?_⟩
            · intro p hp
              have hp2 : r0.pubAt = some p := hp
              exact Nat.lt_succ_of_lt (hr1 p hp2)
            · intro q hq
              have hq2 : some s.clock = some q := hq
              injection hq2 with hq2
              exact Nat.lt_succ_of_le (Nat.le_of_eq hq2.symm)
            · constructor
              · intro _
                exact (show (some s.clock).isSome = true from rfl)
              · intro _
                exact (show CallPhase.settledP = CallPhase.settledP from rfl)
            · intro j hj
              exact hr4 j hj
          · rw [List.getElem?_set_ne (fun hc => hii hc.symm)] at hir
            obtain ⟨h1, h2, h3, h4⟩ := hrec i r hir
            exact ⟨fun p hp => Nat.lt_succ_of_lt (h1 p hp),
                   fun q hq => Nat.lt_succ_of_lt (h2 q hq), h3, h4⟩
        · intro i r hir j hj p hp
          by_cases hii : i = i0
          · subst hii
            rw [List.getElem?_set_self hi0lt] at hir
            injection hir with hir
            subst hir
            have hj2 : r0.prior = some j := hj
            have hp2 : r0.pubAt = some p := hp
            obtain ⟨rj, hrj, q, hq, hqp⟩ := hpub i r0 hci j hj2 p hp2
            have hji0 : j ≠ i := by
              have := hr4 j hj2
              omega
            refine ⟨rj, ?_, q, hq, hqp⟩
            rw [List.getElem?_set_ne (fun hc => hji0 hc.symm)]
            exact hrj
          · rw [List.getElem?_set_ne (fun hc => hii hc.symm)] at hir
            by_cases hji : j = i0
            · rw [hji] at hj
              obtain ⟨rj, hrj, q, hq, hqp⟩ := hpub i r hir i0 hj p hp
              rw [hci] at hrj
              injection hrj with hrj
              subst hrj
              rw [hstl] at hq
              exact Option.noConfusion hq
            · obtain ⟨rj, hrj, q, hq, hqp⟩ := hpub i r hir j hj p hp
              refine ⟨rj, ?_, q, hq, hqp⟩
              rw [List.getElem?_set_ne (fun hc => hji hc.symm)]
              exact hrj
      · rw [if_neg hph] at hstep
        exact Option.noConfusion hstep
  | CorrAction.resume i0 =>
    rw [corrStep] at hstep
    match hci : s.calls[i0]? with
    | none =>
      rw [hci] at hstep
      exact Option.noConfusion hstep
    | some r0 =>
      simp only [hci] at hstep
      match hpr : r0.prior with
      | none =>
        simp only [hpr] at hstep
        exact Option.noConfusion hstep
      | some j0 =>
        simp only [hpr] at hstep
        match hcj : s.calls[j0]? with
        | none =>
          simp only [hcj] at hstep
          exact Option.noConfusion hstep
        | some rj0 =>
          simp only [hcj] at hstep
          by_cases hcond : r0.phase = CallPhase.waiting ∧ rj0.phase = CallPhase.settledP
          · rw [if_pos hcond] at hstep
            injection hstep with hstep
            subst hstep
            obtain ⟨hw, hsj⟩ := hcond
            obtain ⟨hr1, hr2, hr3, hr4⟩ := hrec i0 r0 hci
            obtain ⟨hj1, hj2, hj3, hj4⟩ := hrec j0 rj0 hcj
            have hi0lt : i0 < s.calls.length := by
              obtain ⟨hlt, _⟩ := List.getElem?_eq_some.mp hci
              exact hlt
            have hstlr0 : r0.stlAt = none := by
              cases h0 : r0.stlAt with
              | none => rfl
              | some q =>
                have hset : r0.phase = CallPhase.settledP := hr3.mpr (by simp [h0])
                rw [hw] at hset
                exact absurd hset (by decide)
            have hj0i0 : j0 < i0 := hr4 j0 hpr
            obtain ⟨qj, hqj⟩ := Option.isSome_iff_exists.mp (hj3.mp hsj)
            refine ⟨?_, ?_, ?_⟩
            · intro j hj
              have hj5 : some i0 = some j := hj
              injection hj5 with hj5
              subst hj5
              simpa [List.length_set] using hi0lt
            · intro i r hir
              by_cases hii : i = i0
              · subst hii
                rw [List.getElem?_set_self hi0lt] at hir
                injection hir with hir
                subst hir
                refine ⟨?_, ?_, ?_, ?_⟩
                · intro p hp
                  have hp2 : some s.clock = some p := hp
                  injection hp2 with hp2
                  exact Nat.lt_succ_of_le (Nat.le_of_eq hp2.symm)
                · intro q hq
                  have hq2 : r0.stlAt = some q := hq
                  rw [hstlr0] at hq2
                  exact Option.noConfusion hq2
                · constructor
                  · intro hph
                    exact absurd
                      (show CallPhase.outstanding = CallPhase.settledP from hph)
                      (by decide)
                  · intro hs
                    have hs2 : (r0.stlAt).isSome = true := hs
                    rw [hstlr0] at hs2
                    exact absurd hs2 (by decide)
                · intro j hj
                  have hj5 : some j0 = some j := hj
                  injection hj5 with hj5
                  subst hj5
                  exact hr4 j0 hpr
              · rw [List.getElem?_set_ne (fun hc => hii hc.symm)] at hir
                obtain ⟨h1, h2, h3, h4⟩ := hrec i r hir
                exact ⟨fun p hp => Nat.lt_succ_of_lt (h1 p hp),
                       fun q hq => Nat.lt_succ_of_lt (h2 q hq), h3, h4⟩
            · intro i r hir j hj p hp
              by_cases hii : i = i0
              · subst hii
                rw [List.getElem?_set_self hi0lt] at hir
                injection hir with hir
                subst hir
                have hj5 : some j0 = some j := hj
                injection hj5 with hj5
                subst hj5
                have hp2 : some s.clock = some p := hp
                injection hp2 with hp2
                have hji0ne : i ≠ j0 := by omega
                refine ⟨rj0, ?_, qj, hqj, ?_⟩
                · rw [List.getElem?_set_ne hji0ne]
                  exact hcj
                · have hqlt : qj < s.clock := hj2 qj hqj
                  omega
              · rw [List.getElem?_set_ne (fun hc => hii hc.symm)] at hir
                by_cases hji : j = i0
                · rw [hji] at hj
                  obtain ⟨rjx, hrjx, q, hq, hqp⟩ := hpub i r hir i0 hj p hp
                  rw [hci] at hrjx
                  injection hrjx with hrjx
                  subst hrjx
                  rw [hstlr0] at hq
                  exact Option.noConfusion hq
                · obtain ⟨rjx, hrjx, q, hq, hqp⟩ := hpub i r hir j hj p hp
                  refine ⟨rjx, ?_, q, hq, hqp⟩
                  rw [List.getElem?_set_ne (fun hc => hji hc.symm)]
                  exact hrjx
          · rw [if_neg hcond] at hstep
            exact Option.noConfusion hstep

theorem corrInit_inv : CorrInv corrInit := by
  refine ⟨?_, ?_, ?_⟩
  · intro j hj
    exact Option.noConfusion hj
  · intro i r hir
    rw [show (corrInit.calls[i]? = (none : Option CallRec)) from by
      simp [corrInit]] at hir
    exact Option.noConfusion hir
  · intro i r hir
    rw [show (corrInit.calls[i]? = (none : Option CallRec)) from by
      simp [corrInit]] at hir
    exact Option.noConfusion hir

theorem runCorr_inv (tr : List CorrAction) :
    ∀ s s' : CorrState, runCorr s tr = some s' → CorrInv s → CorrInv s' := by
  induction tr with
  | nil =>
    intro s s' h hinv
    cases Option.some_injective _ h
    exact hinv
  | cons a rest ih =>
    intro s s' h hinv
    rw [runCorr] at h
    match hs1 : corrStep s a with
    | none => rw [hs1] at h; cases h
    | some s1 =>
      rw [hs1] at h
      exact ih s1 s' h (corrStep_inv s a s1 hs1 hinv)

/-- Claim C4, counterexample: three calls for the same key while the first
request is outstanding leave two waiters awaiting the FIRST promise (each
captured tracking at call time); once the first settles, both waiters publish
and two tracked requests are outstanding at once, refuting the at-most-one
invariant. -/
theorem C4_counterexample :
    (runCorr corrInit [CorrAction.call, CorrAction.call, CorrAction.call,
        CorrAction.settle 0, CorrAction.resume 1, CorrAction.resume 2]).map
      (fun s => decide (outstandingCount s ≤ 1)) = some false := by
  decide

/-- Claim C4, amended: a call of sendMessageAsync that finds a tracked
request for its key publishes its message only after the future it captured
at call time has settled (whatever the outcome); however several callers can
await the same prior future, so more than one tracked request per key can be
outstanding at a time. -/
theorem C4_amended_thm (tr : List CorrAction) (s : CorrState)
    (h : runCorr corrInit tr = some s) : PublishAfterPrior s :=
  (runCorr_inv tr corrInit s h corrInit_inv).2.2

def c4WitnessState : CorrState :=
  ⟨[⟨none, CallPhase.settledP, some 0, some 1⟩,
    ⟨some 0, CallPhase.outstanding, some 2, none⟩], some 1, 3⟩

theorem C4_witness :
    runCorr corrInit [CorrAction.call, CorrAction.call, CorrAction.settle 0,
        CorrAction.resume 1] = some c4WitnessState ∧
    PublishAfterPrior c4WitnessState := by
  refine ⟨by decide, ?_⟩
  exact C4_amended_thm [CorrAction.call, CorrAction.call, CorrAction.settle 0,
    CorrAction.resume 1] c4WitnessState (by decide)

/-! ### Settlement of one correlated request (Interface.js, lines 571-593 and
_onResult lines 457-499)

A tracked request can be settled by a matching result message (resolve with
the reason on success, reject with the reason string on failure) or by the
timeout timer, which rejects with an Error whose name field is set to
"timeout".  A JS promise keeps its first settlement; later attempts are
ignored.  The timer is armed only when the timeout argument is truthy
(nonzero), and fires at the timeout instant; matching results are listed in
arrival order, those arriving before the timeout instant ahead of it. -/

inductive RejectValue where
  | errObj (name : String) (message : String)
  | strVal (s : String)
  deriving DecidableEq, Repr

inductive Settlement where
  | resolved (reason : String)
  | rejected (v : RejectValue)
  deriving DecidableEq, Repr

/-- The rejection value produced by the timeout branch of sendMessageAsync:
new Error with message "Polyglot result message not received" and name set to
"timeout" so that a catch can tell it apart. -/
def timeoutError : RejectValue :=
  RejectValue.errObj "timeout" "Polyglot result message not received"

/-- Default of the timeout parameter of sendMessageAsync. -/
def sendMessageAsyncDefaultTimeout : Nat := 15000

inductive SettleAttempt where
  | resolveA (reason : String)
  | rejectA (v : RejectValue)
  deriving DecidableEq, Repr

/-- First-settlement-wins semantics of a JS promise. -/
def firstSettlement : List SettleAttempt → Option Settlement
  | [] => none
  | SettleAttempt.resolveA s :: _ => some (Settlement.resolved s)
  | SettleAttempt.rejectA v :: _ => some (Settlement.rejected v)

/-- Settlement attempt of one matching result message (_onResult): resolve
with the reason on success, reject with the reason string on failure. -/
def resultAttempt (r : Nat × Bool × String) : SettleAttempt :=
  if r.2.1 then SettleAttempt.resolveA r.2.2
  else SettleAttempt.rejectA (RejectValue.strVal r.2.2)

/-- All settlement attempts a request with the given timeout sees, in time
order: matching results before the timeout instant, then the timer (armed
only for truthy timeout), then later results. -/
def requestAttempts (timeout : Nat) (results : List (Nat × Bool × String)) :
    List SettleAttempt :=
  (results.filter (fun r => decide (r.1 < timeout))).map resultAttempt ++
  (if timeout != 0 then [SettleAttempt.rejectA timeoutError] else []) ++
  (results.filter (fun r => !decide (r.1 < timeout))).map resultAttempt

/-- Claim C7 (confirmed): a correlated request with a truthy timeout that
receives no matching result before its timeout settles rejected with the
timeout error, which is distinguishable from any remote-reported rejection
(those reject with a plain reason string, while the timeout rejects with an
Error object whose name is "timeout"). -/
theorem C7_timeout_rejection (timeout : Nat) (results : List (Nat × Bool × String))
    (htimeout : timeout ≠ 0) (hnores : ∀ r ∈ results, timeout ≤ r.1) :
    firstSettlement (requestAttempts timeout results) =
      some (Settlement.rejected timeoutError) ∧
    (∀ reason : String,
      Settlement.rejected timeoutError ≠
        Settlement.rejected (RejectValue.strVal reason)) ∧
    timeoutError = RejectValue.errObj "timeout" "Polyglot result message not received" := by
  refine ⟨?_, ?_, rfl⟩
  · have h1 : results.filter (fun r => decide (r.1 < timeout)) = [] := by
      rw [List.filter_eq_nil_iff]
      intro r hr
      simp [Nat.not_lt.mpr (hnores r hr)]
    have h2 : (timeout != 0) = true := by
      simpa [bne_iff_ne] using htimeout
    rw [requestAttempts, h1, h2]
    simp [firstSettlement]
  · intro reason h
    rw [timeoutError] at h
    exact RejectValue.noConfusion (Settlement.rejected.inj h)

theorem C7_witness :
    sendMessageAsyncDefaultTimeout ≠ 0 ∧
    (∀ r ∈ ([] : List (Nat × Bool × String)), sendMessageAsyncDefaultTimeout ≤ r.1) ∧
    firstSettlement (requestAttempts sendMessageAsyncDefaultTimeout []) =
      some (Settlement.rejected timeoutError) := by
  refine ⟨by decide, by simp, ?_⟩
  exact (C7_timeout_rejection sendMessageAsyncDefaultTimeout [] (by decide) (by simp)).1

/-! ### JS values (for messages and the Node-instance check) -/

inductive JSv where
  | undef
  | jsNull
  | jsBool (b : Bool)
  | num (n : Int)
  | str (s : String)
  | obj (isNodeInstance : Bool) (fields : List (String × JSv))
  | arr (elems : List JSv)

/-- Set a field of a JS object: replace a present key in place, append a new
one.  Property assignment on primitives is a silent no-op (not reached by
the code modelled here). -/
def setField : List (String × JSv) → String → JSv → List (String × JSv)
  | [], k, v => [(k, v)]
  | (a, w) :: rest, k, v =>
    if a == k then (a, v) :: rest else (a, w) :: setField rest k v

def jsSetField (m : JSv) (k : String) (v : JSv) : JSv :=
  match m with
  | JSv.obj b fs => JSv.obj b (setField fs k v)
  | other => other

/-! ### Connection state and fire-and-forget sends (Interface.js, lines
536-554) -/

structure ConnFlags where
  mqttClientConnected : Bool
  mqttPolyglotConnected : Bool
  deriving DecidableEq, Repr

/-- Interface.isConnected: the flag conjunction, plus the warning logged
when it is false. -/
def isConnected (f : ConnFlags) : Bool × List String :=
  let connected := f.mqttClientConnected && f.mqttPolyglotConnected
  (connected,
   if connected then []
   else ["Polyglot connection is not connected. MQTT Client is" ++
         (if f.mqttClientConnected then "" else " NOT") ++ " connected, Polyglot is" ++
         (if f.mqttPolyglotConnected then "" else " NOT") ++ " connected"])

structure SendState where
  flags : ConnFlags
  profileNum : Nat

/-- Interface._sendMessage: stamp the stringified profile number into the
node field and publish. -/
def sendMessageInternal (st : SendState) (m : JSv) : JSv :=
  jsSetField m "node" (JSv.str (toString st.profileNum))

/-- Interface.sendMessage: publish through _sendMessage when isConnected,
otherwise do nothing beyond the warning isConnected has logged (no retry, no
queueing, no state change). -/
def sendMessage (st : SendState) (m : JSv) : SendState × List JSv × List String :=
  let c := isConnected st.flags
  if c.1 then (st, [sendMessageInternal st m], c.2)
  else (st, [], c.2)

/-- Claim C8 (confirmed): isConnected is true exactly when both the local
socket-connected flag and the remote-presence flag are set; sendMessage
publishes the stamped message exactly when isConnected is true, otherwise
publishes nothing; the warning log is empty exactly when connected; and the
interface state is returned unchanged in both cases. -/
theorem C8_send_connectivity (st : SendState) (m : JSv) :
    ((isConnected st.flags).1 = true ↔
      st.flags.mqttClientConnected = true ∧ st.flags.mqttPolyglotConnected = true) ∧
    (sendMessage st m).1 = st ∧
    (sendMessage st m).2.1 =
      (if (isConnected st.flags).1 then [sendMessageInternal st m] else []) ∧
    ((sendMessage st m).2.2 = [] ↔ (isConnected st.flags).1 = true) := by
  obtain ⟨⟨c, p⟩, n⟩ := st
  cases c <;> cases p <;>
    simp [isConnected, sendMessage]

/-! ### Node drivers (Node.js source, embedded in src/README.md)

A driver value in practice is a string, number or boolean; numbers are
modelled as integers (their toString is the decimal form).  A Driver record
always has its value and uom fields, so the three-part validity guard in
setDriver reduces to key membership. -/

inductive JVal where
  | str (s : String)
  | num (n : Int)
  | jsBool (b : Bool)
  deriving DecidableEq, Repr

structure Driver where
  value : JVal
  uom : Nat
  changed : Bool := false
  deriving DecidableEq, Repr

structure NodeSt where
  address : String
  drivers : List (String × Driver)
  deriving DecidableEq, Repr

/-- In-place update of the driver object stored under a key (JS mutates the
object; key set and order are unchanged). -/
def assocSet (l : List (String × Driver)) (k : String) (v : Driver) :
    List (String × Driver) :=
  l.map (fun p => match p.fst == k with
    | true => (p.fst, v)
    | false => p)

/-- Node.convertValue: numbers stringify; booleans encode to "1"/"0" with a
warning when the uom of the driver is not 2 (the boolean uom); everything
else passes through.  Returns the converted value and the warnings logged.
The uom read on the boolean path uses 0 when the driver is absent; the JS
code would throw there, and the setDriver guard keeps it unreachable. -/
def convertValue (node : NodeSt) (driver : String) (value : JVal) :
    JVal × List String :=
  match value with
  | JVal.num n => (JVal.str (toString n), [])
  | JVal.jsBool b =>
    let uom := match node.drivers.lookup driver with
      | some d => d.uom
      | none => 0
    ((JVal.str (if b then "1" else "0")),
     if uom ≠ 2 then
       ["Value for driver " ++ driver ++ " is a boolean, but the uom is " ++
        toString uom ++ " (Should be 2)"]
     else [])
  | v => (v, [])

/-- The value part of convertValue, which depends only on the argument. -/
def convValue : JVal → JVal
  | JVal.num n => JVal.str (toString n)
  | JVal.jsBool b => JVal.str (if b then "1" else "0")
  | v => v

theorem convertValue_fst (node : NodeSt) (driver : String) (value : JVal) :
    (convertValue node driver value).1 = convValue value := by
  match value with
  | JVal.num n => rfl
  | JVal.jsBool b => rfl
  | JVal.str s => rfl

structure StatusMsg where
  address : String
  driver : String
  value : JVal
  uom : Nat
  deriving DecidableEq, Repr

/-- Node.reportDriver: publish a status message and clear the changed flag,
but only when the driver is marked changed or forceReport is set. -/
def reportDriver (node : NodeSt) (driver : String) (forceReport : Bool) :
    NodeSt × List StatusMsg :=
  match node.drivers.lookup driver with
  | some d =>
    if d.changed || forceReport then
      ({ node with drivers := assocSet node.drivers driver { d with changed := false } },
       [⟨node.address, driver, d.value, d.uom⟩])
    else (node, [])
  | none => (node, [])

/-- Node.setDriver: validity guard, optional uom update (the uom argument is
checked for JS truthiness, so 0 behaves like null), value coercion through
convertValue, change marking when the coerced value differs from the cached
one, and an optional report.  Returns the updated node, the status messages
published and the warnings logged. -/
def setDriver (node : NodeSt) (driver : String) (value : JVal)
    (report : Bool) (forceReport : Bool) (uom : Option Nat) :
    NodeSt × List StatusMsg × List String :=
  match node.drivers.lookup driver with
  | some d0 =>
    let d1 :=
      match uom with
      | some u => if u ≠ 0 ∧ d0.uom ≠ u then { d0 with uom := u, changed := true } else d0
      | none => d0
    let node1 := { node with drivers := assocSet node.drivers driver d1 }
    let converted := convertValue node1 driver value
    let d2 :=
      if d1.value ≠ converted.1 then { d1 with value := converted.1, changed := true }
      else d1
    let node2 := { node with drivers := assocSet node.drivers driver d2 }
    if report then
      let rep := reportDriver node2 driver forceReport
      (rep.1, rep.2, converted.2)
    else
      (node2, [], converted.2)
  | none => (node, [], [])

theorem lookup_assocSet (l : List (String × Driver)) (k : String) (v : Driver) :
    ∀ d0, l.lookup k = some d0 → (assocSet l k v).lookup k = some v := by
  induction l with
  | nil => intro d0 h; exact Option.noConfusion h
  | cons p rest ih =>
    intro d0 h
    rcases p with ⟨a, w⟩
    by_cases hk : k = a
    · subst hk
      simp [assocSet, List.lookup]
    · have hb : (k == a) = false := beq_false_of_ne hk
      have ha : (a == k) = false := beq_false_of_ne (fun hc => hk hc.symm)
      simp only [List.lookup, hb] at h
      simpa [assocSet, List.lookup, ha, hb] using ih d0 h

theorem assocSet_assocSet (l : List (String × Driver)) (k : String) (x y : Driver) :
    assocSet (assocSet l k x) k y = assocSet l k y := by
  induction l with
  | nil => rfl
  | cons p rest ih =>
    rcases p with ⟨a, w⟩
    by_cases ha : (a == k) = true
    · simpa [assocSet, ha] using ih
    · have ha' : (a == k) = false := by simpa using ha
      simpa [assocSet, ha'] using ih

/-- Claim C6 (confirmed): with report enabled and a value whose coerced form
differs from the cached one, setDriver publishes exactly one status message
carrying the coerced value (and the driver uom); without the report step the
driver is left marked changed with the coerced value; calling setDriver again
with the same value publishes nothing; booleans always coerce to "1"/"0"
regardless of the uom; and a boolean set on a driver whose uom is not 2 logs
the warning. -/
theorem C6_setDriver (node : NodeSt) (d : String) (v : JVal) (d0 : Driver)
    (hlook : node.drivers.lookup d = some d0)
    (hdiff : convValue v ≠ d0.value) :
    (setDriver node d v true false none).2.1 =
      [⟨node.address, d, convValue v, d0.uom⟩] ∧
    (setDriver node d v false false none).1.drivers.lookup d =
      some { d0 with value := convValue v, changed := true } ∧
    (setDriver (setDriver node d v true false none).1 d v true false none).2.1 = [] ∧
    (∀ b : Bool, (convertValue node d (JVal.jsBool b)).1 =
      JVal.str (if b then "1" else "0")) ∧
    (∀ b : Bool, d0.uom ≠ 2 →
      (convertValue node d (JVal.jsBool b)).2 =
        ["Value for driver " ++ d ++ " is a boolean, but the uom is " ++
         toString d0.uom ++ " (Should be 2)"]) := by
  have hne : d0.value ≠ convValue v := fun hc => hdiff hc.symm
  have hrep1 : setDriver node d v true false none =
      ({ node with drivers := assocSet node.drivers d ⟨convValue v, d0.uom, false⟩ },
       [⟨node.address, d, convValue v, d0.uom⟩],
       (convertValue { node with drivers := assocSet node.drivers d d0 } d v).2) := by
    have hl2 : (assocSet node.drivers d ⟨convValue v, d0.uom, true⟩).lookup d =
        some ⟨convValue v, d0.uom, true⟩ :=
      lookup_assocSet node.drivers d _ d0 hlook
    simp only [setDriver, hlook, convertValue_fst]
    rw [if_pos hne]
    simp [reportDriver, hl2, assocSet_assocSet]
  have hrep0 : setDriver node d v false false none =
      ({ node with drivers := assocSet node.drivers d ⟨convValue v, d0.uom, true⟩ },
       [],
       (convertValue { node with drivers := assocSet node.drivers d d0 } d v).2) := by
    simp only [setDriver, hlook, convertValue_fst]
    rw [if_pos hne]
    simp
  refine ⟨by rw [hrep1], ?_, ?_, ?_, ?_⟩
  · rw [hrep0]
    exact lookup_assocSet node.drivers d _ d0 hlook
  · rw [hrep1]
    have hlook1 : (assocSet node.drivers d ⟨convValue v, d0.uom, false⟩).lookup d =
        some ⟨convValue v, d0.uom, false⟩ :=
      lookup_assocSet node.drivers d _ d0 hlook
    have hlook2 : (assocSet (assocSet node.drivers d ⟨convValue v, d0.uom, false⟩) d
          ⟨convValue v, d0.uom, false⟩).lookup d =
        some ⟨convValue v, d0.uom, false⟩ := by
      rw [assocSet_assocSet]
      exact hlook1
    simp [setDriver, hlook1, convertValue_fst, reportDriver, hlook2]
  · intro b
    rw [convertValue_fst]
    rfl
  · intro b hu
    simp [convertValue, hlook, hu]

theorem C6_witness :
    ((NodeSt.mk "n001" [("ST", ⟨JVal.str "0", 51, false⟩)]).drivers.lookup "ST" =
      some ⟨JVal.str "0", 51, false⟩) ∧
    (convValue (JVal.jsBool true) ≠ JVal.str "0") ∧
    ((setDriver (NodeSt.mk "n001" [("ST", ⟨JVal.str "0", 51, false⟩)])
        "ST" (JVal.jsBool true) true false none).2.1 =
      [⟨"n001", "ST", convValue (JVal.jsBool true), 51⟩]) := by
  refine ⟨by decide, by decide, ?_⟩
  exact (C6_setDriver (NodeSt.mk "n001" [("ST", ⟨JVal.str "0", 51, false⟩)])
    "ST" (JVal.jsBool true) ⟨JVal.str "0", 51, false⟩ (by decide) (by decide)).1

/-! ### addNode and delNode (Interface.js, lines 604-628 and 656-663)

Both functions guard with (as written) !node instanceof Node, which by JS
precedence parses as (!node) instanceof Node: the negation produces a
boolean, and a boolean is never an instance of Node, so the guard is always
false and the else branch always runs.  The else branch builds the message
by reading properties of the argument; property reads on null or undefined
throw a TypeError, modelled by the error side of Except. -/

def jsTruthy : JSv → Bool
  | JSv.undef => false
  | JSv.jsNull => false
  | JSv.jsBool b => b
  | JSv.num n => decide (n ≠ 0)
  | JSv.str s => decide (s ≠ "")
  | JSv.obj _ _ => true
  | JSv.arr _ => true

def instanceofNode : JSv → Bool
  | JSv.obj true _ => true
  | _ => false

/-- The guard of addNode and delNode as written: (!node) instanceof Node. -/
def notInstanceGuard (v : JSv) : Bool := instanceofNode (JSv.jsBool (!jsTruthy v))

/-- JS property read: throws on null and undefined, yields the field or
undefined on objects, undefined on other primitives (boxed-value methods are
not modelled; the code only reads plain data fields). -/
def getProp (v : JSv) (p : String) : Except String JSv :=
  match v with
  | JSv.undef =>
    Except.error ("TypeError: cannot read properties of undefined (reading " ++ p ++ ")")
  | JSv.jsNull =>
    Except.error ("TypeError: cannot read properties of null (reading " ++ p ++ ")")
  | JSv.obj _ fields => Except.ok ((fields.lookup p).getD JSv.undef)
  | _ => Except.ok JSv.undef

/-- Object.keys: throws on null and undefined, keys on objects, [] on other
primitives. -/
def objKeys : JSv → Except String (List String)
  | JSv.undef => Except.error "TypeError: Object.keys called on undefined"
  | JSv.jsNull => Except.error "TypeError: Object.keys called on null"
  | JSv.obj _ fields => Except.ok (fields.map Prod.fst)
  | _ => Except.ok []

def jsOwnFields : JSv → List (String × JSv)
  | JSv.obj _ fields => fields
  | _ => []

/-- Object.assign onto a fresh object: copy the base fields, then write the
extra ones (later writes of an existing key replace in place). -/
def jsAssignFields (base extra : List (String × JSv)) : List (String × JSv) :=
  extra.foldl (fun acc kv => setField acc kv.fst kv.snd) base

/-- JS string coercion as used in the key concatenation. -/
def jsToDisplayString : JSv → String
  | JSv.undef => "undefined"
  | JSv.jsNull => "null"
  | JSv.jsBool b => if b then "true" else "false"
  | JSv.num n => toString n
  | JSv.str s => s
  | JSv.obj _ _ => "[object Object]"
  | JSv.arr _ => ""

/-- The mapped drivers array of the addnode message:
Object.keys(node.drivers).map(key => Object.assign({}, node.drivers[key],
{driver: key})). -/
def driversArray (drivers : JSv) : List String → Except String (List JSv)
  | [] => Except.ok []
  | key :: rest =>
    match getProp drivers key with
    | Except.error e => Except.error e
    | Except.ok dv =>
      match driversArray drivers rest with
      | Except.error e => Except.error e
      | Except.ok tail =>
        Except.ok (JSv.obj false (jsAssignFields (jsOwnFields dv)
          [("driver", JSv.str key)]) :: tail)

/-- The addnode message object literal, with JS evaluation order (property
reads in source order; a throw aborts construction). -/
def addNodeMessage (node : JSv) : Except String JSv :=
  match getProp node "address" with
  | Except.error e => Except.error e
  | Except.ok address =>
  match getProp node "name" with
  | Except.error e => Except.error e
  | Except.ok name =>
  match getProp node "id" with
  | Except.error e => Except.error e
  | Except.ok nodeDefId =>
  match getProp node "primary" with
  | Except.error e => Except.error e
  | Except.ok primary =>
  match getProp node "drivers" with
  | Except.error e => Except.error e
  | Except.ok drivers =>
  match objKeys drivers with
  | Except.error e => Except.error e
  | Except.ok keys =>
  match driversArray drivers keys with
  | Except.error e => Except.error e
  | Except.ok driverList =>
    Except.ok (JSv.obj false [("addnode", JSv.obj false [("nodes",
      JSv.arr [JSv.obj false [("address", address), ("name", name),
        ("node_def_id", nodeDefId), ("primary", primary),
        ("drivers", JSv.arr driverList)]])])])

structure SendAttempt where
  key : String
  message : JSv

/-- Interface.addNode: dead guard, then message construction and the tracked
send under key addnode-(address).  ok none models the error-logged branch
(never taken); error models a thrown TypeError (no message attempted). -/
def addNode (node : JSv) : Except String (Option SendAttempt) :=
  if notInstanceGuard node then Except.ok none
  else
    match addNodeMessage node with
    | Except.error e => Except.error e
    | Except.ok msg =>
      match getProp node "address" with
      | Except.error e => Except.error e
      | Except.ok address =>
        Except.ok (some ⟨"addnode-" ++ jsToDisplayString address, msg⟩)

/-- Interface.delNode: dead guard, then the removenode message send. -/
def delNode (node : JSv) : Except String (Option JSv) :=
  if notInstanceGuard node then Except.ok none
  else
    match getProp node "address" with
    | Except.error e => Except.error e
    | Except.ok address =>
      Except.ok (some (JSv.obj false [("removenode",
        JSv.obj false [("address", address)])]))

def isNullish : JSv → Bool
  | JSv.undef => true
  | JSv.jsNull => true
  | _ => false

theorem notInstanceGuard_false (v : JSv) : notInstanceGuard v = false := rfl

theorem getProp_ok_of_not_nullish (v : JSv) (p : String) (h : isNullish v = false) :
    ∃ w, getProp v p = Except.ok w := by
  cases v with
  | undef => simp [isNullish] at h
  | jsNull => simp [isNullish] at h
  | jsBool b => exact ⟨_, rfl⟩
  | num n => exact ⟨_, rfl⟩
  | str s => exact ⟨_, rfl⟩
  | obj b fs => exact ⟨_, rfl⟩
  | arr es => exact ⟨_, rfl⟩

theorem objKeys_ok_of_not_nullish (v : JSv) (h : isNullish v = false) :
    ∃ ks, objKeys v = Except.ok ks := by
  cases v with
  | undef => simp [isNullish] at h
  | jsNull => simp [isNullish] at h
  | jsBool b => exact ⟨_, rfl⟩
  | num n => exact ⟨_, rfl⟩
  | str s => exact ⟨_, rfl⟩
  | obj b fs => exact ⟨_, rfl⟩
  | arr es => exact ⟨_, rfl⟩

theorem driversArray_ok (dv : JSv) (h : isNullish dv = false) (keys : List String) :
    ∃ l, driversArray dv keys = Except.ok l := by
  induction keys with
  | nil => exact ⟨[], rfl⟩
  | cons k rest ih =>
    obtain ⟨w, hw⟩ := getProp_ok_of_not_nullish dv k h
    obtain ⟨l, hl⟩ := ih
    exact ⟨JSv.obj false (jsAssignFields (jsOwnFields w) [("driver", JSv.str k)]) :: l,
      by rw [driversArray, hw, hl]⟩

/-- Claim C10, counterexample: when addNode or delNode is called with null,
the dead guard is still not taken, yet no message is attempted: the property
read during message construction throws a TypeError, so the call fails
before any send, refuting that the message is always attempted. -/
theorem C10_counterexample :
    notInstanceGuard JSv.jsNull = false ∧
    addNode JSv.jsNull =
      Except.error "TypeError: cannot read properties of null (reading address)" ∧
    delNode JSv.jsNull =
      Except.error "TypeError: cannot read properties of null (reading address)" :=
  ⟨rfl, rfl, rfl⟩

/-- Claim C10, amended: the not-an-instance error branch is never taken for
any argument, because the guard (!node) instanceof Node is always false; the
add-device or remove-device message is then always attempted, provided the
property reads during message construction do not throw (the argument is not
null or undefined and, for addNode, neither is its drivers property). -/
theorem C10_amended_thm (v dv : JSv) (hv : isNullish v = false)
    (hdv : getProp v "drivers" = Except.ok dv) (hdvn : isNullish dv = false) :
    (∀ w : JSv, notInstanceGuard w = false) ∧
    (∃ m, delNode v = Except.ok (some m)) ∧
    (∃ a, addNode v = Except.ok (some a)) := by
  refine ⟨fun w => rfl, ?_, ?_⟩
  · obtain ⟨adr, hadr⟩ := getProp_ok_of_not_nullish v "address" hv
    exact ⟨JSv.obj false [("removenode", JSv.obj false [("address", adr)])], by
      rw [delNode]
      rw [if_neg (by rw [notInstanceGuard_false v]; exact Bool.false_ne_true)]
      rw [hadr]⟩
  · obtain ⟨adr, hadr⟩ := getProp_ok_of_not_nullish v "address" hv
    obtain ⟨nm, hnm⟩ := getProp_ok_of_not_nullish v "name" hv
    obtain ⟨idv, hidv⟩ := getProp_ok_of_not_nullish v "id" hv
    obtain ⟨pr, hpr⟩ := getProp_ok_of_not_nullish v "primary" hv
    obtain ⟨ks, hks⟩ := objKeys_ok_of_not_nullish dv hdvn
    obtain ⟨dl, hdl⟩ := driversArray_ok dv hdvn ks
    refine ⟨⟨"addnode-" ++ jsToDisplayString adr,
      JSv.obj false [("addnode", JSv.obj false [("nodes",
        JSv.arr [JSv.obj false [("address", adr), ("name", nm),
          ("node_def_id", idv), ("primary", pr),
          ("drivers", JSv.arr dl)]])])]⟩, ?_⟩
    rw [addNode]
    rw [if_neg (by rw [notInstanceGuard_false v]; exact Bool.false_ne_true)]
    simp only [addNodeMessage, hadr, hnm, hidv, hpr, hdv, hks, hdl]

def c10Node : JSv :=
  JSv.obj false [("address", JSv.str "n001"),
                 ("drivers", JSv.obj false [("ST", JSv.obj false [])])]

theorem C10_witness :
    isNullish c10Node = false ∧
    getProp c10Node "drivers" = Except.ok (JSv.obj false [("ST", JSv.obj false [])]) ∧
    isNullish (JSv.obj false [("ST", JSv.obj false [])]) = false ∧
    ((∀ w : JSv, notInstanceGuard w = false) ∧
     (∃ m, delNode c10Node = Except.ok (some m)) ∧
     (∃ a, addNode c10Node = Except.ok (some a))) := by
  refine ⟨rfl, rfl, rfl, ?_⟩
  exact C10_amended_thm c10Node (JSv.obj false [("ST", JSv.obj false [])]) rfl rfl rfl

end PolyIface
